import Mathlib

/-!
Shallow embedding of `src/main_xml_creator/main_script_creator.py` and proofs
about it.

The program is a batch generator: it loads a header and a footer template,
lists a source directory, groups the filenames that contain the literal
delimiter `".Test."` by the part of the name before the first occurrence of
that delimiter, renders one aggregator string per group, and writes one
`MODELNAME.xml` file per group into a destination folder.

Embedding conventions:
* Python strings are Lean `String`s; character-level operations are done on
  `String.data` (a `List Char`).
* The Python `dict` built by `scan_for_models` is an insertion-ordered
  association list `List (String × Nat)`.
* The filesystem is an association list `FS := List (String × String)` from
  path to content; writing is an overwriting update.
* `main`'s interactions with the outside world (platform name, the results of
  the two template reads, the directory listing, and the success of each file
  write) are collected in an `Env` record; `run` is the resulting pure
  function, returning the exit code, the final filesystem and the printed
  lines.
-/

/-- The literal delimiter `".Test."` from `scan_for_models` (line 65). -/
def testDelim : String := ".Test."

/-- Leftmost-split search: `firstSplitAux sep l` returns `some pre` when `sep`
occurs as a contiguous sublist of `l`, where `pre` is the part of `l` strictly
before the first (leftmost) occurrence; `none` when `sep` does not occur.
This models Python's `str.find`/`str.split` search for a non-empty separator. -/
def firstSplitAux (sep : List Char) : List Char → Option (List Char)
  | [] => none
  | c :: cs =>
    if sep.isPrefixOf (c :: cs) then some []
    else (firstSplitAux sep cs).map (fun pre => c :: pre)

/-- Python `'.Test.' in filename` (line 65): the delimiter occurs in the name. -/
def contains_test_delim (filename : String) : Bool :=
  (firstSplitAux testDelim.data filename.data).isSome

/-- Python `filename.split('.Test.')[0]` (line 66): everything before the first
occurrence of the delimiter; the whole string when the delimiter is absent. -/
def model_name_of (filename : String) : String :=
  match firstSplitAux testDelim.data filename.data with
  | some pre => String.mk pre
  | none => filename

/-- Lookup in the insertion-ordered dict modelling the Python `models` dict. -/
def dictFind : List (String × Nat) → String → Option Nat
  | [], _ => none
  | (k', v) :: rest, k => if k' = k then some v else dictFind rest k

/-- `models[k] = v`: update in place when the key exists (Python dicts keep the
original position), append at the end when it does not (insertion order). -/
def dictSet : List (String × Nat) → String → Nat → List (String × Nat)
  | [], k, v => [(k, v)]
  | (k', v') :: rest, k, v =>
    if k' = k then (k, v) :: rest else (k', v') :: dictSet rest k v

/-- One iteration of the `for filename in filenames` loop of `scan_for_models`
(lines 64-70). -/
def scan_step (models : List (String × Nat)) (filename : String) :
    List (String × Nat) :=
  if contains_test_delim filename then
    let model_name := model_name_of filename
    match dictFind models model_name with
    | none => dictSet models model_name 1
    | some c => dictSet models model_name (c + 1)
  else models

/-- `scan_for_models` (lines 46-71), with the directory listing already
obtained: builds the model-name → test-count table. -/
def scan_for_models (filenames : List String) : List (String × Nat) :=
  filenames.foldl scan_step []

/-- Python `format(i, '03d')` for a non-negative `i` (line 94): the decimal
representation of `i`, left-padded with the character `0` to a minimum width
of 3. -/
def format03d (i : Nat) : String :=
  let s := Nat.repr i
  if s.length < 3 then String.mk (List.replicate (3 - s.length) '0') ++ s
  else s

/-- The string appended for index `i` in the loop body of `create_main_string`
(lines 94-95), with the source's exact concatenation chunks. -/
def include_line (model_name : String) (i : Nat) : String :=
  "<INCLUDE FileName=\"" ++ model_name ++ ".Test." ++ format03d i ++
    ".xml\" " ++ "NameSpace=\"\" TAB=\"10\" LineComment=\"0\"/>" ++ "\n"

/-- `create_main_string` (lines 73-97). `tests_count` is a Python `int`, hence
`Int`; `range(1, tests_count + 1)` is the list of integers `1 .. tests_count`,
which is empty when `tests_count < 1` and otherwise consists of the naturals
`1 .. tests_count.toNat`. -/
def create_main_string (model_name : String) (tests_count : Int)
    (header footer : String) : String :=
  let main_string := header
  let main_string :=
    (List.range' 1 tests_count.toNat).foldl
      (fun acc i => acc ++ include_line model_name i) main_string
  main_string ++ footer

/-- The filesystem: a map from path to file content. -/
abbrev FS := List (String × String)

/-- Read the content of the file at `p`, when it exists. -/
def fsFind : FS → String → Option String
  | [], _ => none
  | (q, v) :: rest, p => if q = p then some v else fsFind rest p

/-- `open(dest, 'w+').write(text)`: create the file at `p` with content `v`,
overwriting any existing file at that path. -/
def fsSet : FS → String → String → FS
  | [], p, v => [(p, v)]
  | (q, v') :: rest, p, v =>
    if q = p then (p, v) :: rest else (q, v') :: fsSet rest p v

/-- Python `destination_folder.endswith("\\")` (line 115). -/
def ends_with_backslash (s : String) : Bool :=
  s.data.getLast? == some '\\'

/-- The destination path computed by `create_main_file` (lines 114-117):
`file_name = model_name + ".xml"`, a backslash is appended to the folder
unless it already ends with one, and the two are concatenated. -/
def main_file_path (model_name destination_folder : String) : String :=
  let file_name := model_name ++ ".xml"
  let dest_folder :=
    if ends_with_backslash destination_folder = false then
      destination_folder ++ "\\"
    else destination_folder
  dest_folder ++ file_name

/-- The filesystem effect of a successful `create_main_file` (lines 99-124):
write `main_string` to `main_file_path model_name destination_folder`. -/
def create_main_file (model_name main_string destination_folder : String)
    (fs : FS) : FS :=
  fsSet fs (main_file_path model_name destination_folder) main_string

/-- The outside world as `main` observes it: the platform name reported by
`platform.system()`, the results of the header read, the footer read and the
directory listing (`.error ()` models the raised `IOError`/`OSError`), and
which write paths succeed. -/
structure Env where
  platform : String
  header : Except Unit String
  footer : Except Unit String
  listing : Except Unit (List String)
  write_ok : String → Bool

/-- Outcome of a run of `main`: the `sys.exit` code, the final filesystem and
the lines printed to stdout. -/
structure RunResult where
  exit_code : Nat
  fs : FS
  stdout : List String

/-- The `for model_name, test_count in models.items()` loop of `main`
(lines 179-184): render and write each group's file in order; a failing write
raises `IOError`, caught in `main` as `sys.exit(1)`, aborting the loop. -/
def write_models (env : Env) (destination_folder header footer : String) :
    List (String × Nat) → FS → Nat × FS
  | [], fs => (0, fs)
  | (model_name, test_count) :: rest, fs =>
    let main_string :=
      create_main_string model_name (test_count : Int) header footer
    if env.write_ok (main_file_path model_name destination_folder) then
      write_models env destination_folder header footer rest
        (create_main_file model_name main_string destination_folder fs)
    else (1, fs)

/-- `main` (lines 126-188) with arguments already parsed: the platform check,
the two template loads, the directory scan, the per-group write loop, and the
final exit code, threading the filesystem and the printed output. -/
def run (env : Env) (destination_folder : String) (verbose : Bool)
    (fs0 : FS) : RunResult :=
  if env.platform ≠ "Windows" then
    ⟨1, fs0, ["This script only runs properly on Windows.\n"]⟩
  else
    let out := if verbose then ["\nVerbosity turned on!\n"] else []
    match env.header with
    | .error _ => ⟨1, fs0, out ++ ["Couldn't read header file."]⟩
    | .ok header =>
      let out := out ++ if verbose then ["Header successfully loaded!\n"] else []
      match env.footer with
      | .error _ => ⟨1, fs0, out ++ ["Couldn't read footer file."]⟩
      | .ok footer =>
        let out := out ++ if verbose then ["Footer successfully loaded!\n"] else []
        match env.listing with
        | .error _ => ⟨1, fs0, out ++ ["Error scaning origin directory!"]⟩
        | .ok filenames =>
          let models := scan_for_models filenames
          let out := out ++ if verbose then ["models: " ++ toString models] else []
          match write_models env destination_folder header footer models fs0 with
          | (0, fs) =>
            ⟨0, fs, out ++ if verbose then
              ["Created model_name.xml files successfully!"] else []⟩
          | (_, fs) => ⟨1, fs, out ++ ["Couldn't open or write to file."]⟩

/-- Spec-side include line, from the spec's words: one line of the form
`<INCLUDE FileName="{groupName}.Test.{i zero-padded to 3 digits}.xml"
NameSpace="" TAB="10" LineComment="0"/>` followed by a newline. -/
def spec_include_line (groupName : String) (i : Nat) : String :=
  "<INCLUDE FileName=\"" ++ groupName ++ ".Test." ++ format03d i ++
    ".xml\" NameSpace=\"\" TAB=\"10\" LineComment=\"0\"/>\n"

/-- Spec-side renderer, from the spec's words: exactly the header, followed by
one include line for each `i` from 1 to `count` inclusive, followed by the
footer, with no other characters. -/
def spec_render (groupName : String) (count : Nat)
    (header footer : String) : String :=
  header ++ String.join ((List.range' 1 count).map (spec_include_line groupName))
    ++ footer

/-! ### String helper lemmas -/

theorem str_data_inj {s t : String} (h : s.data = t.data) : s = t := by
  cases s; cases t; exact congrArg String.mk h

theorem str_append_left_cancel {a b c : String} (h : a ++ b = a ++ c) :
    b = c := by
  have h' := congrArg String.data h
  simp only [String.data_append] at h'
  exact str_data_inj (List.append_cancel_left h')

theorem str_append_right_cancel {a b c : String} (h : a ++ c = b ++ c) :
    a = b := by
  have h' := congrArg String.data h
  simp only [String.data_append] at h'
  exact str_data_inj (List.append_cancel_right h')

theorem str_join_cons (s : String) (l : List String) :
    String.join (s :: l) = s ++ String.join l := by
  simp [String.join_eq]; rfl

theorem foldl_append_line (line : Nat → String) :
    ∀ (l : List Nat) (a : String),
      l.foldl (fun acc i => acc ++ line i) a = a ++ String.join (l.map line)
  | [], a => by simp [String.join, String.append_empty]
  | x :: xs, a => by
    rw [List.map_cons, str_join_cons, List.foldl_cons,
      foldl_append_line line xs (a ++ line x), String.append_assoc]

theorem include_line_eq (g : String) (i : Nat) :
    include_line g i = spec_include_line g i := by
  unfold include_line spec_include_line
  apply str_data_inj
  simp only [String.data_append, List.append_assoc]
  congr 1

/-! ### Claim theorems C1 and C8 -/

/-- C1: for every group name `g`, count `n ≥ 1` and strings `header`,
`footer`, `create_main_string g n header footer` returns exactly the header,
followed by, for each `i` from 1 to `n`, the spec's include line for `i`
(terminated by a newline), followed by the footer, with no other characters;
in particular at `n = 1` it emits exactly one include line, with index 001. -/
theorem create_main_string_matches_spec (g h f : String) (n : Nat)
    (_hn : 1 ≤ n) :
    create_main_string g (n : Int) h f = spec_render g n h f ∧
    create_main_string g ((1 : Nat) : Int) h f = (h ++ spec_include_line g 1) ++ f ∧
    spec_include_line g 1 =
      "<INCLUDE FileName=\"" ++ g ++
        ".Test.001.xml\" NameSpace=\"\" TAB=\"10\" LineComment=\"0\"/>\n" := by
  have key : ∀ m : Nat, create_main_string g (m : Int) h f = spec_render g m h f := by
    intro m
    show (List.range' 1 ((m : Int)).toNat).foldl
        (fun acc i => acc ++ include_line g i) h ++ f = spec_render g m h f
    unfold spec_render
    rw [Int.toNat_natCast, foldl_append_line (include_line g) (List.range' 1 m) h]
    have : List.map (include_line g) (List.range' 1 m) =
        List.map (spec_include_line g) (List.range' 1 m) := by
      apply List.map_congr_left
      intro i _
      exact include_line_eq g i
    rw [this, String.append_assoc]
  refine ⟨key n, ?_, ?_⟩
  · rw [key 1]
    unfold spec_render
    rw [show List.range' 1 1 = [1] from rfl, List.map_cons, List.map_nil,
      str_join_cons]
    rw [show String.join [] = "" from rfl, String.append_empty,
      String.append_assoc]
  · unfold spec_include_line
    apply str_data_inj
    simp only [String.data_append, List.append_assoc]
    congr 1

set_option maxRecDepth 10000 in
/-- Witness for C1 at the spec's own example: group `"A"`, count 3. -/
theorem create_main_string_matches_spec_witness :
    create_main_string "A" ((3 : Nat) : Int) "<H>" "<F>" = spec_render "A" 3 "<H>" "<F>" ∧
    spec_render "A" 3 "<H>" "<F>" =
      "<H><INCLUDE FileName=\"A.Test.001.xml\" NameSpace=\"\" TAB=\"10\" LineComment=\"0\"/>\n<INCLUDE FileName=\"A.Test.002.xml\" NameSpace=\"\" TAB=\"10\" LineComment=\"0\"/>\n<INCLUDE FileName=\"A.Test.003.xml\" NameSpace=\"\" TAB=\"10\" LineComment=\"0\"/>\n<F>" :=
  ⟨(create_main_string_matches_spec "A" "<H>" "<F>" 3 (by decide)).1, by decide⟩

/-- C8: calling `create_main_string` with a count of 0, or any count below 1
(outside the stated precondition), returns exactly the header concatenated
with the footer, with no include lines, rather than failing. -/
theorem create_main_string_count_below_one (g h f : String) (c : Int)
    (hc : c < 1) : create_main_string g c h f = h ++ f := by
  unfold create_main_string
  rw [show c.toNat = 0 by omega]
  rfl

/-- Witness for C8 at count 0. -/
theorem create_main_string_count_below_one_witness :
    (0 : Int) < 1 ∧ create_main_string "A" 0 "<H>" "<F>" = "<H>" ++ "<F>" :=
  ⟨by decide, create_main_string_count_below_one "A" "<H>" "<F>" 0 (by decide)⟩

/-! ### Claim C4: the zero-padding of the include index -/

set_option maxRecDepth 10000 in
theorem repr_len_le_three : ∀ n : Nat, n < 1000 → (Nat.repr n).length ≤ 3 := by
  decide

/-- C4: for every index `i ≥ 1`, the include index rendered for `i` is the
decimal representation of `i` left-padded with `0` to a minimum width of 3
digits and never truncated: the output is exactly the padding zeros followed
by the full decimal representation, its width is `max 3 (width of i)`, for
`i ≤ 999` exactly 3 digits are emitted, and for `i = 1000` the 4-digit string
`"1000"` is emitted. -/
theorem format03d_pad_to_min_three (i : Nat) (_hi : 1 ≤ i) :
    (format03d i).data =
      List.replicate (3 - (Nat.repr i).length) '0' ++ (Nat.repr i).data ∧
    (format03d i).length = max 3 (Nat.repr i).length ∧
    (i ≤ 999 → (format03d i).length = 3) ∧
    format03d 1000 = "1000" := by
  have hdata : (format03d i).data =
      List.replicate (3 - (Nat.repr i).length) '0' ++ (Nat.repr i).data := by
    unfold format03d
    by_cases hl : (Nat.repr i).length < 3
    · simp [hl]
    · simp [hl, show 3 - (Nat.repr i).length = 0 by omega]
  have hlen : (format03d i).length = max 3 (Nat.repr i).length := by
    have h1 : (format03d i).length = (format03d i).data.length := rfl
    have h2 : (Nat.repr i).data.length = (Nat.repr i).length := rfl
    rw [h1, hdata, List.length_append, List.length_replicate, h2]
    omega
  refine ⟨hdata, hlen, ?_, by decide⟩
  intro h999
  have h3 : (Nat.repr i).length ≤ 3 := repr_len_le_three i (by omega)
  omega

/-- Witness for C4 at `i = 42`. -/
theorem format03d_pad_to_min_three_witness :
    (format03d 42).length = 3 ∧ format03d 42 = "042" :=
  ⟨(format03d_pad_to_min_three 42 (by decide)).2.2.1 (by decide), by decide⟩

/-! ### The scanner's group table: dict lemmas and characterization -/

/-- `filename` is counted toward group `g`: it contains the delimiter and the
part before the first occurrence is `g`. -/
def matches_group (g : String) (filename : String) : Bool :=
  contains_test_delim filename && (model_name_of filename == g)

/-- The count a group table assigns to `g` (0 when `g` is absent). -/
def lookup_count (models : List (String × Nat)) (g : String) : Nat :=
  (dictFind models g).getD 0

theorem dictFind_dictSet_self (d : List (String × Nat)) (k : String)
    (v : Nat) : dictFind (dictSet d k v) k = some v := by
  induction d with
  | nil => simp [dictSet, dictFind]
  | cons p rest ih =>
    obtain ⟨k', v'⟩ := p
    by_cases h : k' = k <;> simp [dictSet, dictFind, h, ih]

theorem dictFind_dictSet_ne (d : List (String × Nat)) (k q : String)
    (v : Nat) (h : q ≠ k) : dictFind (dictSet d k v) q = dictFind d q := by
  induction d with
  | nil => simp [dictSet, dictFind, Ne.symm h]
  | cons p rest ih =>
    obtain ⟨k', v'⟩ := p
    by_cases hk : k' = k
    · subst hk
      simp [dictSet, dictFind, Ne.symm h]
    · simp [dictSet, dictFind, hk, ih]

theorem scan_step_eq (models : List (String × Nat)) (f : String) :
    scan_step models f =
      if contains_test_delim f then
        match dictFind models (model_name_of f) with
        | none => dictSet models (model_name_of f) 1
        | some c => dictSet models (model_name_of f) (c + 1)
      else models := rfl

theorem scan_fold_find (g : String) :
    ∀ (fs : List String) (acc : List (String × Nat)),
      dictFind (List.foldl scan_step acc fs) g =
        match dictFind acc g with
        | some c => some (c + List.countP (matches_group g) fs)
        | none =>
          if List.countP (matches_group g) fs = 0 then none
          else some (List.countP (matches_group g) fs) := by
  intro fs
  induction fs with
  | nil =>
    intro acc
    cases hacc : dictFind acc g <;> simp [hacc]
  | cons f rest ih =>
    intro acc
    rw [List.foldl_cons, ih (scan_step acc f), List.countP_cons]
    by_cases hdel : contains_test_delim f
    · by_cases hname : model_name_of f = g
      · have hmatch : matches_group g f = true := by
          simp [matches_group, hdel, hname]
        cases hacc : dictFind acc g with
        | none =>
          have hstep : dictFind (scan_step acc f) g = some 1 := by
            rw [scan_step_eq, if_pos hdel, hname, hacc]
            exact dictFind_dictSet_self acc g 1
          rw [hstep, hmatch]
          simp
          all_goals omega
        | some c =>
          have hstep : dictFind (scan_step acc f) g = some (c + 1) := by
            rw [scan_step_eq, if_pos hdel, hname, hacc]
            exact dictFind_dictSet_self acc g (c + 1)
          rw [hstep, hmatch]
          simp
          all_goals omega
      · have hmatch : matches_group g f = false := by
          simp [matches_group, hname]
        have hstep : dictFind (scan_step acc f) g = dictFind acc g := by
          rw [scan_step_eq, if_pos hdel]
          cases hf : dictFind acc (model_name_of f) with
          | none =>
            exact dictFind_dictSet_ne acc (model_name_of f) g 1 (Ne.symm hname)
          | some c =>
            exact dictFind_dictSet_ne acc (model_name_of f) g (c + 1)
              (Ne.symm hname)
        rw [hstep, hmatch]
        simp
    · have hmatch : matches_group g f = false := by
        simp [matches_group, hdel]
      have hstep : scan_step acc f = acc := by
        rw [scan_step_eq, if_neg hdel]
      rw [hstep, hmatch]
      simp

theorem scan_find_char (l : List String) (g : String) :
    dictFind (scan_for_models l) g =
      if List.countP (matches_group g) l = 0 then none
      else some (List.countP (matches_group g) l) := by
  unfold scan_for_models
  rw [scan_fold_find g l []]
  rfl

/-! ### Claim theorems C2 and C9 -/

/-- C2: scanning groups exactly those entries containing `".Test."`: the
count the table assigns to any group `g` is the tally of entries whose part
before the first `".Test."` is `g`; entries lacking the delimiter match no
group's predicate, hence contribute to no count. On the spec's example
listing the table is exactly `A ↦ 2, B ↦ 1`. -/
theorem scan_for_models_tallies_by_delimiter :
    (∀ (filenames : List String) (g : String),
      lookup_count (scan_for_models filenames) g =
        List.countP (matches_group g) filenames) ∧
    scan_for_models ["A.Test.001.xml", "A.Test.002.xml", "B.Test.001.xml"] =
      [("A", 2), ("B", 1)] := by
  constructor
  · intro l g
    unfold lookup_count
    rw [scan_find_char]
    by_cases h : List.countP (matches_group g) l = 0 <;> simp [h]
  · decide

/-- C9: the scanner's result, as a mapping from group name to count, does not
depend on the order of the directory listing: permuting the listing yields a
table with exactly the same lookups. -/
theorem scan_for_models_order_independent (l l' : List String)
    (h : l.Perm l') (g : String) :
    dictFind (scan_for_models l) g = dictFind (scan_for_models l') g := by
  rw [scan_find_char, scan_find_char, h.countP_eq (matches_group g)]

/-- Witness for C9 on a transposed two-element listing. -/
theorem scan_for_models_order_independent_witness :
    dictFind (scan_for_models ["B.Test.001.xml", "A.Test.001.xml"]) "A" =
      dictFind (scan_for_models ["A.Test.001.xml", "B.Test.001.xml"]) "A" :=
  scan_for_models_order_independent _ _
    (List.Perm.swap "A.Test.001.xml" "B.Test.001.xml" []) "A"

/-! ### Claim C5: the file writer's path join and overwrite semantics -/

theorem fsFind_fsSet_self (fs : FS) (p v : String) :
    fsFind (fsSet fs p v) p = some v := by
  induction fs with
  | nil => simp [fsSet, fsFind]
  | cons e rest ih =>
    obtain ⟨q, v'⟩ := e
    by_cases h : q = p <;> simp [fsSet, fsFind, h, ih]

theorem fsFind_fsSet_ne (fs : FS) (p q v : String) (h : q ≠ p) :
    fsFind (fsSet fs p v) q = fsFind fs q := by
  induction fs with
  | nil => simp [fsSet, fsFind, Ne.symm h]
  | cons e rest ih =>
    obtain ⟨q', v'⟩ := e
    by_cases hq : q' = p
    · subst hq
      simp [fsSet, fsFind, Ne.symm h]
    · simp [fsSet, fsFind, hq, ih]

theorem ends_with_backslash_append (d : String) :
    ends_with_backslash (d ++ "\\") = true := by
  unfold ends_with_backslash
  rw [String.data_append, show ("\\" : String).data = ['\\'] from rfl,
    List.getLast?_concat]
  simp

theorem main_file_path_eq (m d : String) :
    main_file_path m d =
      (if ends_with_backslash d = false then d ++ "\\" else d) ++
        (m ++ ".xml") := rfl

/-- C5: `create_main_file g t d` writes the file named `g.xml` under `d`,
joining with a single backslash: when `d` does not end with a separator one
is inserted, and a `d` already ending with the separator yields the same
path (the trailing separator is neither required nor duplicated). The write
overwrites without confirmation: writing `t1` then `t2` for the same group
and destination leaves the file's final content equal to `t2`. -/
theorem create_main_file_path_and_overwrite (g t1 t2 d : String) (fs : FS)
    (hd : ends_with_backslash d = false) :
    main_file_path g d = (d ++ "\\") ++ (g ++ ".xml") ∧
    main_file_path g (d ++ "\\") = main_file_path g d ∧
    fsFind (create_main_file g t2 d (create_main_file g t1 d fs))
      (main_file_path g d) = some t2 := by
  have h1 : main_file_path g d = (d ++ "\\") ++ (g ++ ".xml") := by
    rw [main_file_path_eq, if_pos hd]
  refine ⟨h1, ?_, ?_⟩
  · rw [main_file_path_eq, h1, ends_with_backslash_append d]
    simp
  · unfold create_main_file
    exact fsFind_fsSet_self _ _ _

/-- Witness for C5: two successive writes for group `"A"` under `"C:\\out"`. -/
theorem create_main_file_path_and_overwrite_witness :
    main_file_path "A" "C:\\out" = "C:\\out\\A.xml" ∧
    fsFind (create_main_file "A" "second" "C:\\out"
        (create_main_file "A" "first" "C:\\out" []))
      (main_file_path "A" "C:\\out") = some "second" :=
  ⟨by decide,
   (create_main_file_path_and_overwrite "A" "first" "second" "C:\\out" []
      (by decide)).2.2⟩

/-! ### The orchestrator's write loop -/

/-- The write at destination `d` succeeds for group entry `mc`. -/
def write_ok_pred (env : Env) (d : String) (mc : String × Nat) : Bool :=
  env.write_ok (main_file_path mc.1 d)

/-- Render and write one group's file. -/
def group_write (d header footer : String) (fs : FS) (mc : String × Nat) :
    FS :=
  create_main_file mc.1 (create_main_string mc.1 (mc.2 : Int) header footer)
    d fs

theorem group_write_eq (d h f : String) (fs : FS) (mc : String × Nat) :
    group_write d h f fs mc =
      fsSet fs (main_file_path mc.1 d)
        (create_main_string mc.1 (mc.2 : Int) h f) := rfl

theorem write_models_cons (env : Env) (d h f m : String) (c : Nat)
    (rest : List (String × Nat)) (fs : FS) :
    write_models env d h f ((m, c) :: rest) fs =
      if env.write_ok (main_file_path m d) then
        write_models env d h f rest
          (create_main_file m (create_main_string m (c : Int) h f) d fs)
      else (1, fs) := rfl

theorem write_models_eq (env : Env) (d h f : String) :
    ∀ (models : List (String × Nat)) (fs : FS),
      write_models env d h f models fs =
        (if models.all (write_ok_pred env d) then 0 else 1,
         (models.takeWhile (write_ok_pred env d)).foldl
           (group_write d h f) fs) := by
  intro models
  induction models with
  | nil => intro fs; rfl
  | cons mc rest ih =>
    intro fs
    obtain ⟨m, c⟩ := mc
    by_cases hw : env.write_ok (main_file_path m d) = true
    · have hp : write_ok_pred env d (m, c) = true := hw
      rw [write_models_cons, if_pos hw, ih, List.all_cons,
        List.takeWhile_cons_of_pos hp, List.foldl_cons]
      simp only [hp, Bool.true_and]
      rfl
    · have hwf : env.write_ok (main_file_path m d) = false :=
        Bool.eq_false_iff.mpr hw
      have hp : write_ok_pred env d (m, c) = false := hwf
      rw [write_models_cons, if_neg hw, List.all_cons,
        List.takeWhile_cons_of_neg (by simp [hp])]
      simp [hp]

/-! ### Distinctness of the scanned group names and written paths -/

theorem dictFind_none_iff (d : List (String × Nat)) (k : String) :
    dictFind d k = none ↔ k ∉ d.map Prod.fst := by
  induction d with
  | nil => simp [dictFind]
  | cons p rest ih =>
    obtain ⟨k', v'⟩ := p
    by_cases h : k' = k
    · subst h
      simp [dictFind]
    · simp [dictFind, h, ih, Ne.symm h]

theorem dictSet_keys_of_find_some (d : List (String × Nat)) (k : String)
    (v : Nat) :
    ∀ c, dictFind d k = some c →
      (dictSet d k v).map Prod.fst = d.map Prod.fst := by
  induction d with
  | nil => intro c hc; simp [dictFind] at hc
  | cons p rest ih =>
    obtain ⟨k', v'⟩ := p
    intro c hc
    by_cases h : k' = k
    · subst h
      simp [dictSet]
    · simp only [dictFind, h, if_false] at hc
      simp [dictSet, h, ih c hc]

theorem dictSet_keys_of_find_none (d : List (String × Nat)) (k : String)
    (v : Nat) (h : dictFind d k = none) :
    (dictSet d k v).map Prod.fst = d.map Prod.fst ++ [k] := by
  induction d with
  | nil => simp [dictSet]
  | cons p rest ih =>
    obtain ⟨k', v'⟩ := p
    by_cases hk : k' = k
    · subst hk
      simp [dictFind] at h
    · simp only [dictFind, hk, if_false] at h
      simp [dictSet, hk, ih h]

theorem scan_step_keys_nodup (acc : List (String × Nat)) (f : String)
    (h : (acc.map Prod.fst).Nodup) :
    ((scan_step acc f).map Prod.fst).Nodup := by
  rw [scan_step_eq]
  by_cases hdel : contains_test_delim f
  · rw [if_pos hdel]
    cases hf : dictFind acc (model_name_of f) with
    | none =>
      rw [dictSet_keys_of_find_none acc (model_name_of f) 1 hf]
      have hni : model_name_of f ∉ acc.map Prod.fst :=
        (dictFind_none_iff acc (model_name_of f)).mp hf
      simp [List.nodup_append, h, hni]
    | some c =>
      rw [dictSet_keys_of_find_some acc (model_name_of f) (c + 1) c hf]
      exact h
  · rw [if_neg hdel]
    exact h

theorem scan_for_models_keys_nodup (l : List String) :
    ((scan_for_models l).map Prod.fst).Nodup := by
  unfold scan_for_models
  have inv : ∀ (fs : List String) (acc : List (String × Nat)),
      (acc.map Prod.fst).Nodup →
      ((List.foldl scan_step acc fs).map Prod.fst).Nodup := by
    intro fs
    induction fs with
    | nil => intro acc h; exact h
    | cons f rest ih =>
      intro acc h
      rw [List.foldl_cons]
      exact ih (scan_step acc f) (scan_step_keys_nodup acc f h)
  exact inv l [] (by simp)

theorem main_file_path_inj (d : String) {m1 m2 : String}
    (h : main_file_path m1 d = main_file_path m2 d) : m1 = m2 := by
  rw [main_file_path_eq, main_file_path_eq] at h
  exact str_append_right_cancel (str_append_left_cancel h)

/-! ### Lookups after the per-group write fold -/

theorem fsFind_foldl_other (d h f : String) :
    ∀ (l : List (String × Nat)) (fs : FS) (p : String),
      (∀ mc ∈ l, main_file_path mc.1 d ≠ p) →
      fsFind (l.foldl (group_write d h f) fs) p = fsFind fs p := by
  intro l
  induction l with
  | nil => intro fs p _; rfl
  | cons mc rest ih =>
    intro fs p hall
    rw [List.foldl_cons,
      ih _ p (fun x hx => hall x (List.mem_cons_of_mem mc hx)),
      group_write_eq]
    exact fsFind_fsSet_ne fs _ p _
      (Ne.symm (hall mc (List.mem_cons_self mc rest)))

theorem fsFind_foldl_mem (d h f : String) :
    ∀ (l : List (String × Nat)) (fs : FS),
      (l.map Prod.fst).Nodup →
      ∀ mc ∈ l,
        fsFind (l.foldl (group_write d h f) fs) (main_file_path mc.1 d) =
          some (create_main_string mc.1 (mc.2 : Int) h f) := by
  intro l
  induction l with
  | nil => intro fs _ mc hmc; cases hmc
  | cons a rest ih =>
    intro fs hnd mc hmc
    have hnd' : (a.1 :: rest.map Prod.fst).Nodup := by simpa using hnd
    rw [List.foldl_cons]
    rcases List.mem_cons.mp hmc with heq | hmem
    · subst heq
      have hnot : ∀ x ∈ rest, main_file_path x.1 d ≠ main_file_path mc.1 d := by
        intro x hx hcontra
        have hx1 : x.1 = mc.1 := main_file_path_inj d hcontra
        exact (List.nodup_cons.mp hnd').1
          (hx1 ▸ List.mem_map_of_mem Prod.fst hx)
      rw [fsFind_foldl_other d h f rest _ _ hnot, group_write_eq]
      exact fsFind_fsSet_self _ _ _
    · exact ih _ (List.nodup_cons.mp hnd').2 mc hmem

/-! ### Claim theorems about the orchestrator: C7, C6, C3 -/

/-- C7: when the platform does not identify itself as Windows the program
refuses to run: exit code 1, no file written (the filesystem is unchanged),
and the outcome does not depend on the templates, the listing or the write
results at all — they are never consulted. -/
theorem run_refuses_non_windows (env : Env) (d : String) (v : Bool)
    (fs0 : FS) (h : env.platform ≠ "Windows") :
    (run env d v fs0).exit_code = 1 ∧ (run env d v fs0).fs = fs0 ∧
    ∀ (hh ff : Except Unit String) (ll : Except Unit (List String))
      (w : String → Bool),
      run ⟨env.platform, hh, ff, ll, w⟩ d v fs0 = run env d v fs0 := by
  have hrun : run env d v fs0 =
      ⟨1, fs0, ["This script only runs properly on Windows.\n"]⟩ := by
    unfold run
    rw [if_pos h]
  refine ⟨by rw [hrun], by rw [hrun], ?_⟩
  intro hh ff ll w
  have hrun2 : run ⟨env.platform, hh, ff, ll, w⟩ d v fs0 =
      ⟨1, fs0, ["This script only runs properly on Windows.\n"]⟩ := by
    unfold run
    rw [if_pos h]
  rw [hrun2, hrun]

/-- A concrete non-Windows environment for the C7 witness. -/
def envLinux : Env :=
  ⟨"Linux", Except.ok "<H>", Except.ok "<F>",
    Except.ok ["A.Test.001.xml"], fun _ => true⟩

/-- Witness for C7: on `"Linux"` the run exits 1 and writes nothing. -/
theorem run_refuses_non_windows_witness :
    (run envLinux "out" false []).exit_code = 1 ∧
    (run envLinux "out" false []).fs = [] :=
  ⟨(run_refuses_non_windows envLinux "out" false [] (by decide)).1,
   (run_refuses_non_windows envLinux "out" false [] (by decide)).2.1⟩

/-- C6: with the templates, listing, platform and write outcomes fixed,
enabling verbose mode changes only what is printed: the exit status and the
final filesystem (the set of files written and their contents) are identical
with and without the flag. -/
theorem run_verbose_changes_only_stdout (env : Env) (d : String) (fs0 : FS) :
    (run env d true fs0).exit_code = (run env d false fs0).exit_code ∧
    (run env d true fs0).fs = (run env d false fs0).fs := by
  obtain ⟨p, hh, ff, ll, w⟩ := env
  by_cases hp : p = "Windows"
  · subst hp
    have hW : ¬(("Windows" : String) ≠ "Windows") := fun hc => hc rfl
    unfold run
    rw [if_neg hW, if_neg hW]
    cases hh with
    | error e => exact ⟨rfl, rfl⟩
    | ok hdr =>
      cases ff with
      | error e => exact ⟨rfl, rfl⟩
      | ok ftr =>
        cases ll with
        | error e => exact ⟨rfl, rfl⟩
        | ok l =>
          rcases hwm : write_models ⟨"Windows", Except.ok hdr, Except.ok ftr,
              Except.ok l, w⟩ d hdr ftr (scan_for_models l) fs0 with ⟨code, fs⟩
          cases code with
          | zero => exact ⟨by simp only [hwm], by simp only [hwm]⟩
          | succ n => exact ⟨by simp only [hwm], by simp only [hwm]⟩
  · unfold run
    rw [if_pos hp, if_pos hp]
    exact ⟨rfl, rfl⟩

/-- Every step of a run succeeds: the platform is Windows, both template
loads and the directory listing are ok, and the write of every scanned
group's file succeeds. -/
def run_success (env : Env) (d : String) : Prop :=
  env.platform = "Windows" ∧ env.header.isOk = true ∧
  env.footer.isOk = true ∧
  ∃ l, env.listing = Except.ok l ∧
    (scan_for_models l).all (write_ok_pred env d) = true

/-- C3: the run exits 0 exactly when every step succeeds and 1 on any
failure; a failure of the platform check, header load, footer load or scan
leaves the filesystem untouched (no partial output); and when the loads and
scan succeed the final filesystem is exactly the fold of the successful
prefix of group writes — a failing write aborts there, with each earlier
group's file still present with its rendered content. -/
theorem run_exit_and_abort_behavior (env : Env) (d : String) (v : Bool)
    (fs0 : FS) :
    ((run env d v fs0).exit_code = 0 ↔ run_success env d) ∧
    ((run env d v fs0).exit_code = 0 ∨ (run env d v fs0).exit_code = 1) ∧
    (env.platform ≠ "Windows" ∨ env.header.isOk = false ∨
        env.footer.isOk = false ∨ env.listing.isOk = false →
      (run env d v fs0).fs = fs0) ∧
    (∀ hdr ftr l, env.platform = "Windows" → env.header = Except.ok hdr →
      env.footer = Except.ok ftr → env.listing = Except.ok l →
      (run env d v fs0).fs =
        ((scan_for_models l).takeWhile (write_ok_pred env d)).foldl
          (group_write d hdr ftr) fs0 ∧
      ∀ mc ∈ (scan_for_models l).takeWhile (write_ok_pred env d),
        fsFind (run env d v fs0).fs (main_file_path mc.1 d) =
          some (create_main_string mc.1 (mc.2 : Int) hdr ftr)) := by
  obtain ⟨p, hh, ff, ll, w⟩ := env
  by_cases hp : p = "Windows"
  · subst hp
    cases hh with
    | error e =>
      cases e
      have he : (run ⟨"Windows", Except.error (), ff, ll, w⟩ d v fs0).exit_code
          = 1 := by
        unfold run
        rw [if_neg (fun hc => hc rfl)]
      have hf : (run ⟨"Windows", Except.error (), ff, ll, w⟩ d v fs0).fs
          = fs0 := by
        unfold run
        rw [if_neg (fun hc => hc rfl)]
      refine ⟨?_, Or.inr he, fun _ => hf, ?_⟩
      · rw [he]
        simp [run_success, Except.isOk, Except.toBool]
      · intro hdr ftr l _ hhdr
        cases hhdr
    | ok hdr =>
      cases ff with
      | error e =>
        cases e
        have he : (run ⟨"Windows", Except.ok hdr, Except.error (), ll, w⟩
            d v fs0).exit_code = 1 := by
          unfold run
          rw [if_neg (fun hc => hc rfl)]
        have hf : (run ⟨"Windows", Except.ok hdr, Except.error (), ll, w⟩
            d v fs0).fs = fs0 := by
          unfold run
          rw [if_neg (fun hc => hc rfl)]
        refine ⟨?_, Or.inr he, fun _ => hf, ?_⟩
        · rw [he]
          simp [run_success, Except.isOk, Except.toBool]
        · intro hdr' ftr l _ _ hftr
          cases hftr
      | ok ftr =>
        cases ll with
        | error e =>
          cases e
          have he : (run ⟨"Windows", Except.ok hdr, Except.ok ftr,
              Except.error (), w⟩ d v fs0).exit_code = 1 := by
            unfold run
            rw [if_neg (fun hc => hc rfl)]
          have hf : (run ⟨"Windows", Except.ok hdr, Except.ok ftr,
              Except.error (), w⟩ d v fs0).fs = fs0 := by
            unfold run
            rw [if_neg (fun hc => hc rfl)]
          refine ⟨?_, Or.inr he, fun _ => hf, ?_⟩
          · rw [he]
            simp [run_success, Except.isOk, Except.toBool]
          · intro hdr' ftr' l _ _ _ hlst
            cases hlst
        | ok l =>
          have hwm := write_models_eq
            ⟨"Windows", Except.ok hdr, Except.ok ftr, Except.ok l, w⟩
            d hdr ftr (scan_for_models l) fs0
          by_cases hall : (scan_for_models l).all
              (write_ok_pred ⟨"Windows", Except.ok hdr, Except.ok ftr,
                Except.ok l, w⟩ d) = true
          · rw [if_pos hall] at hwm
            have he : (run ⟨"Windows", Except.ok hdr, Except.ok ftr,
                Except.ok l, w⟩ d v fs0).exit_code = 0 := by
              unfold run
              rw [if_neg (fun hc => hc rfl)]
              simp only [hwm]
            have hf : (run ⟨"Windows", Except.ok hdr, Except.ok ftr,
                Except.ok l, w⟩ d v fs0).fs =
                ((scan_for_models l).takeWhile (write_ok_pred
                  ⟨"Windows", Except.ok hdr, Except.ok ftr, Except.ok l, w⟩
                  d)).foldl (group_write d hdr ftr) fs0 := by
              unfold run
              rw [if_neg (fun hc => hc rfl)]
              simp only [hwm]
            refine ⟨?_, Or.inl he, ?_, ?_⟩
            · rw [he]
              constructor
              · intro _
                exact ⟨rfl, rfl, rfl, l, rfl, hall⟩
              · intro _
                rfl
            · intro hyp
              rcases hyp with h | h | h | h
              · exact absurd rfl h
              · exact absurd h (by simp [Except.isOk, Except.toBool])
              · exact absurd h (by simp [Except.isOk, Except.toBool])
              · exact absurd h (by simp [Except.isOk, Except.toBool])
            · intro hdr' ftr' l' _ hhdr hftr hlst
              injection hhdr with h1
              injection hftr with h2
              injection hlst with h3
              subst h1
              subst h2
              subst h3
              refine ⟨hf, ?_⟩
              intro mc hmc
              rw [hf]
              have hnd : (((scan_for_models l).takeWhile (write_ok_pred
                  ⟨"Windows", Except.ok hdr, Except.ok ftr, Except.ok l, w⟩
                  d)).map Prod.fst).Nodup :=
                (scan_for_models_keys_nodup l).sublist
                  ((List.takeWhile_sublist _).map Prod.fst)
              exact fsFind_foldl_mem d hdr ftr _ fs0 hnd mc hmc
          · rw [if_neg hall] at hwm
            have he : (run ⟨"Windows", Except.ok hdr, Except.ok ftr,
                Except.ok l, w⟩ d v fs0).exit_code = 1 := by
              unfold run
              rw [if_neg (fun hc => hc rfl)]
              simp only [hwm]
            have hf : (run ⟨"Windows", Except.ok hdr, Except.ok ftr,
                Except.ok l, w⟩ d v fs0).fs =
                ((scan_for_models l).takeWhile (write_ok_pred
                  ⟨"Windows", Except.ok hdr, Except.ok ftr, Except.ok l, w⟩
                  d)).foldl (group_write d hdr ftr) fs0 := by
              unfold run
              rw [if_neg (fun hc => hc rfl)]
              simp only [hwm]
            refine ⟨?_, Or.inr he, ?_, ?_⟩
            · rw [he]
              constructor
              · intro h10
                exact absurd h10 (by decide)
              · rintro ⟨-, -, -, l', hl', hall'⟩
                injection hl' with h3
                subst h3
                exact absurd hall' hall
            · intro hyp
              rcases hyp with h | h | h | h
              · exact absurd rfl h
              · exact absurd h (by simp [Except.isOk, Except.toBool])
              · exact absurd h (by simp [Except.isOk, Except.toBool])
              · exact absurd h (by simp [Except.isOk, Except.toBool])
            · intro hdr' ftr' l' _ hhdr hftr hlst
              injection hhdr with h1
              injection hftr with h2
              injection hlst with h3
              subst h1
              subst h2
              subst h3
              refine ⟨hf, ?_⟩
              intro mc hmc
              rw [hf]
              have hnd : (((scan_for_models l).takeWhile (write_ok_pred
                  ⟨"Windows", Except.ok hdr, Except.ok ftr, Except.ok l, w⟩
                  d)).map Prod.fst).Nodup :=
                (scan_for_models_keys_nodup l).sublist
                  ((List.takeWhile_sublist _).map Prod.fst)
              exact fsFind_foldl_mem d hdr ftr _ fs0 hnd mc hmc
  · have hrun : run ⟨p, hh, ff, ll, w⟩ d v fs0 =
        ⟨1, fs0, ["This script only runs properly on Windows.\n"]⟩ := by
      unfold run
      rw [if_pos hp]
    refine ⟨?_, Or.inr (by rw [hrun]), fun _ => by rw [hrun], ?_⟩
    · rw [hrun]
      simp [run_success, hp]
    · intro hdr ftr l hplat
      exact absurd hplat hp

/-- A concrete all-success Windows environment for the C3 witness. -/
def envWin : Env :=
  ⟨"Windows", Except.ok "<H>", Except.ok "<F>",
    Except.ok ["A.Test.001.xml"], fun _ => true⟩

/-- Witness for C3: a fully successful run exits 0 and its filesystem is the
fold of the group writes. -/
theorem run_exit_and_abort_behavior_witness :
    (run envWin "out" false []).exit_code = 0 ∧
    (run envWin "out" false []).fs =
      ((scan_for_models ["A.Test.001.xml"]).takeWhile
        (write_ok_pred envWin "out")).foldl
        (group_write "out" "<H>" "<F>") [] :=
  ⟨((run_exit_and_abort_behavior envWin "out" false []).1).mpr
      ⟨rfl, rfl, rfl, ["A.Test.001.xml"], rfl, by decide⟩,
   ((run_exit_and_abort_behavior envWin "out" false []).2.2.2 "<H>" "<F>"
      ["A.Test.001.xml"] rfl rfl rfl rfl).1⟩

/-! ### Claim C10: entries that begin with the delimiter -/

theorem isPrefixOf_append_self (p l : List Char) :
    p.isPrefixOf (p ++ l) = true := by
  simp [List.isPrefixOf_iff_prefix]

theorem firstSplitAux_leading_delim (l : List Char) :
    firstSplitAux ['.', 'T', 'e', 's', 't', '.']
      (['.', 'T', 'e', 's', 't', '.'] ++ l) = some [] := by
  have hpre : (['.', 'T', 'e', 's', 't', '.'].isPrefixOf
      ('.' :: (['T', 'e', 's', 't', '.'] ++ l))) = true :=
    isPrefixOf_append_self ['.', 'T', 'e', 's', 't', '.'] l
  show firstSplitAux ['.', 'T', 'e', 's', 't', '.']
    ('.' :: (['T', 'e', 's', 't', '.'] ++ l)) = some []
  simp only [firstSplitAux, hpre]
  simp

/-- C10: a directory entry whose name begins with `".Test."` is grouped
under the empty group name: it matches the delimiter, its model name is
`""`, scanning such a listing yields the table `"" ↦ 1`, the aggregator
file is written at the path `d ++ "\\" ++ ".xml"` — a file literally named
`.xml` — and its single include line references `.Test.001.xml`. -/
theorem leading_delim_groups_under_empty_name (rest h f d : String)
    (hd : ends_with_backslash d = false) :
    contains_test_delim (testDelim ++ rest) = true ∧
    model_name_of (testDelim ++ rest) = "" ∧
    scan_for_models [testDelim ++ rest] = [("", 1)] ∧
    main_file_path "" d = (d ++ "\\") ++ ".xml" ∧
    create_main_string "" ((1 : Nat) : Int) h f =
      (h ++
        "<INCLUDE FileName=\".Test.001.xml\" NameSpace=\"\" TAB=\"10\" LineComment=\"0\"/>\n")
        ++ f := by
  have hsplit : firstSplitAux testDelim.data ((testDelim ++ rest)).data =
      some [] := by
    rw [String.data_append,
      show testDelim.data = ['.', 'T', 'e', 's', 't', '.'] from rfl]
    exact firstSplitAux_leading_delim rest.data
  have hcontains : contains_test_delim (testDelim ++ rest) = true := by
    unfold contains_test_delim
    rw [hsplit]
    rfl
  have hmodel : model_name_of (testDelim ++ rest) = "" := by
    unfold model_name_of
    rw [hsplit]
  refine ⟨hcontains, hmodel, ?_, ?_, ?_⟩
  · rw [show scan_for_models [testDelim ++ rest] =
        scan_step [] (testDelim ++ rest) from rfl,
      scan_step_eq, if_pos hcontains, hmodel]
    rfl
  · rw [main_file_path_eq, if_pos hd, String.empty_append]
  · show (h ++ include_line "" 1) ++ f =
      (h ++
        "<INCLUDE FileName=\".Test.001.xml\" NameSpace=\"\" TAB=\"10\" LineComment=\"0\"/>\n")
        ++ f
    rw [show include_line "" 1 =
      "<INCLUDE FileName=\".Test.001.xml\" NameSpace=\"\" TAB=\"10\" LineComment=\"0\"/>\n"
      from by decide]

/-- Witness for C10 on the entry `.Test.001.xml` and destination `"out"`. -/
theorem leading_delim_groups_under_empty_name_witness :
    ends_with_backslash "out" = false ∧
    scan_for_models [testDelim ++ "001.xml"] = [("", 1)] ∧
    testDelim ++ "001.xml" = ".Test.001.xml" :=
  ⟨by decide,
   (leading_delim_groups_under_empty_name "001.xml" "<H>" "<F>" "out"
      (by decide)).2.2.1,
   by decide⟩
